import Mathlib

/-!
Shallow embedding of the core logic of the `dxlmispservice` package
(`app.py` and `_requesthandlers.py`): the configuration-setting resolver,
the API-method registry, the request callback (payload decoding, `event`
coercion, response sending), the ZeroMQ notification relay loop, and the
idempotent `destroy` teardown.  Definitions follow the Python source;
external collaborators (the configuration file, the filesystem, the PyMISP
client object, the JSON decoder, the transport) enter as explicit
parameters.
-/

set_option autoImplicit false

namespace DxlMisp

/-! ## Python string primitives

Helpers modelling the Python string operations the source uses:
`str.strip`, `str.split(",")`, `str.partition(" ")`, `str.isdigit` and
`int(s)` on digit-only strings.  They are defined over `List Char` and
lifted to `String`. -/

/-- Python `str.strip()` on a character list: drop whitespace at both ends. -/
def stripChars (l : List Char) : List Char :=
  ((l.dropWhile Char.isWhitespace).reverse.dropWhile Char.isWhitespace).reverse

/-- Python `str.strip()`. -/
def pyStrip (s : String) : String :=
  String.mk (stripChars s.toList)

/-- Python `str.split(",")` on a character list: split at every comma,
no merging of adjacent separators; the empty string yields `[[]]`. -/
def splitComma : List Char → List (List Char)
  | [] => [[]]
  | c :: cs =>
    if c = ',' then [] :: splitComma cs
    else
      match splitComma cs with
      | [] => [[c]]
      | g :: gs => (c :: g) :: gs

/-- Python `str.split(",")`. -/
def pySplitComma (s : String) : List String :=
  (splitComma s.toList).map String.mk

/-- Python `str.partition(" ")` on a character list: the part before the
first space and the part after it; with no space the whole list is the
first component and the second is empty. -/
def partitionSpaceChars : List Char → List Char × List Char
  | [] => ([], [])
  | c :: cs =>
    if c = ' ' then ([], cs)
    else
      let r := partitionSpaceChars cs
      (c :: r.1, r.2)

/-- Python `message.partition(" ")`, keeping only the head and tail parts
(the separator itself is discarded, as in the source's `topic, _, payload`). -/
def partitionSpace (s : String) : String × String :=
  let r := partitionSpaceChars s.toList
  (String.mk r.1, String.mk r.2)

/-- Python `str.isdigit()` for ASCII strings: nonempty and all digits. -/
def pyIsDigit (s : String) : Bool :=
  !s.toList.isEmpty && s.toList.all Char.isDigit

/-- Decimal value of a digit string (the value of Python `int(s)` when
`s.isdigit()` holds). -/
def digitsToNat (l : List Char) : Nat :=
  l.foldl (fun a c => a * 10 + (c.toNat - '0'.toNat)) 0

/-! ## Python value parsers (ConfigParser getters)

`config.getint`, `config.getboolean` and `config.getfloat` convert the
stored option string with `int(...)`, the `BOOLEAN_STATES` table and
`float(...)`; a conversion failure raises `ValueError`.  The numeric
value of a float is never consumed by the service, so a float setting is
carried as its (recognized) literal text. -/

/-- Python `int(s)`: surrounding whitespace stripped, optional sign,
nonempty digit run. -/
def parseIntPy (s : String) : Option Int :=
  let l := stripChars s.toList
  let signed : Bool × List Char :=
    match l with
    | '-' :: r => (true, r)
    | '+' :: r => (false, r)
    | r => (false, r)
  if !signed.2.isEmpty && signed.2.all Char.isDigit then
    some (if signed.1 then -(digitsToNat signed.2 : Int) else (digitsToNat signed.2 : Int))
  else none

/-- Python `ConfigParser.getboolean`: the `BOOLEAN_STATES` table, applied to the
lowercased option value. -/
def parseBoolPy (s : String) : Option Bool :=
  let t := s.toLower
  if t = "1" || t = "yes" || t = "true" || t = "on" then some true
  else if t = "0" || t = "no" || t = "false" || t = "off" then some false
  else none

/-- Mantissa of a Python float literal: `digits [. digits]` or
`. digits`, with at least one digit in total. -/
def isFloatMantissa (l : List Char) : Bool :=
  let a := l.takeWhile Char.isDigit
  match l.drop a.length with
  | [] => !a.isEmpty
  | '.' :: b => b.all Char.isDigit && (!a.isEmpty || !b.isEmpty)
  | _ => false

/-- Exponent digits of a Python float literal, after the `e`: optional
sign then a nonempty digit run. -/
def isFloatExpDigits : List Char → Bool
  | [] => false
  | c :: cs =>
    if c = '+' || c = '-' then !cs.isEmpty && cs.all Char.isDigit
    else !(c :: cs).isEmpty && (c :: cs).all Char.isDigit

/-- Body of a Python float literal after stripping whitespace and sign
and lowercasing: `inf`, `infinity`, `nan`, or mantissa with optional
exponent. -/
def isFloatBody (l : List Char) : Bool :=
  if l = "inf".toList || l = "infinity".toList || l = "nan".toList then true
  else
    let m := l.takeWhile (fun c => c ≠ 'e')
    match l.drop m.length with
    | [] => isFloatMantissa m
    | _ :: e => isFloatMantissa m && isFloatExpDigits e

/-- Whether Python `float(s)` succeeds. -/
def isFloatLit (s : String) : Bool :=
  let l := (stripChars s.toList).map Char.toLower
  match l with
  | '+' :: r => isFloatBody r
  | '-' :: r => isFloatBody r
  | r => isFloatBody r

/-- Whether a (valid) Python float literal denotes `0.0`: not
`inf`/`nan`, and every mantissa digit is `0`. -/
def isZeroFloatLit (s : String) : Bool :=
  let l := (stripChars s.toList).map Char.toLower
  let body : List Char :=
    match l with
    | '+' :: r => r
    | '-' :: r => r
    | r => r
  if body = "inf".toList || body = "infinity".toList || body = "nan".toList then false
  else (body.takeWhile (fun c => c ≠ 'e')).all (fun c => c = '0' || c = '.')

/-! ## Setting resolver (`MispService._get_setting_from_config`,
`app.py` lines 82-149)

The configuration snapshot, the filesystem and `Application._get_path`
(which resolves a relative path against the configuration directory) are
external; they enter as a `ConfigEnv`. -/

/-- A Python value as handled by `_get_setting_from_config`: the possible
results of the `getter_methods` plus the post-processing, and `None` (the
default `default_value`). -/
inductive PyVal where
  | vnone : PyVal
  | vstr : String → PyVal
  | vlist : List String → PyVal
  | vbool : Bool → PyVal
  | vint : Int → PyVal
  | vfloat : String → PyVal
deriving DecidableEq

/-- The `return_type` argument: the keys of `getter_methods`. -/
inductive RetType where
  | str | list | bool | int | float
deriving DecidableEq

/-- Python truthiness of a `PyVal` (`if is_file_path and return_value:`,
line 142). -/
def pyTruthy : PyVal → Bool
  | .vnone => false
  | .vstr s => s ≠ ""
  | .vlist xs => !xs.isEmpty
  | .vbool b => b
  | .vint n => n ≠ 0
  | .vfloat raw => !isZeroFloatLit raw

/-- The external context of `_get_setting_from_config`: the parsed
configuration file (`config.has_option` / the getters), `os.path.isfile`,
and `Application._get_path`. -/
structure ConfigEnv where
  lookup : String → String → Option String
  fileExists : String → Bool
  resolvePath : String → String

/-- The call `getter_methods[return_type](section, setting)`, lines 110-120: `str`
and `list` use `config.get` (the raw stored string, infallible); `bool`,
`int` and `float` convert and may raise `ValueError`. -/
def getterMethod (returnType : RetType) (raw : String) : Option PyVal :=
  match returnType with
  | .str => some (.vstr raw)
  | .list => some (.vstr raw)
  | .bool => (parseBoolPy raw).map .vbool
  | .int => (parseIntPy raw).map .vint
  | .float => if isFloatLit raw then some (.vfloat raw) else none

/-- Lines 108-140 of `_get_setting_from_config`: everything before the
`is_file_path` check.  `Except.error` is a raised `ValueError`. -/
def getSettingRaw (env : ConfigEnv) (sectionName setting : String)
    (defaultValue : PyVal) (returnType : RetType)
    (raiseExceptionIfMissing : Bool) : Except String PyVal :=
  match env.lookup sectionName setting with
  | some raw =>
    match getterMethod returnType raw with
    | none => .error "Unexpected value for setting"
    | some v =>
      match returnType, v with
      | .str, .vstr r =>
        let r := pyStrip r
        if r.length = 0 && raiseExceptionIfMissing then
          .error "Required setting is empty"
        else .ok (.vstr r)
      | .list, .vstr r =>
        let items := (pySplitComma r).map pyStrip
        if items.length = 1 && (items.headD "").length = 0
            && raiseExceptionIfMissing then
          .error "Required setting is empty"
        else .ok (.vlist items)
      | _, v => .ok v
  | none =>
    if raiseExceptionIfMissing then .error "Required setting not found"
    else .ok defaultValue

/-- Lines 142-149: when `is_file_path` is set and the value is truthy,
resolve it via `_get_path` and require a file to exist there.
`_get_path`/`os.path.isfile` on a non-string value raises in Python;
that branch is an error here too. -/
def applyFilePathCheck (env : ConfigEnv) (isFilePath : Bool)
    (v : PyVal) : Except String PyVal :=
  if isFilePath && pyTruthy v then
    match v with
    | .vstr s =>
      let p := env.resolvePath s
      if env.fileExists p then .ok (.vstr p)
      else .error "Cannot find file for setting"
    | _ => .error "path value is not a string"
  else .ok v

/-- The function `MispService._get_setting_from_config` in full. -/
def getSettingFromConfig (env : ConfigEnv) (sectionName setting : String)
    (defaultValue : PyVal) (returnType : RetType)
    (raiseExceptionIfMissing : Bool) (isFilePath : Bool) :
    Except String PyVal :=
  match getSettingRaw env sectionName setting defaultValue returnType
      raiseExceptionIfMissing with
  | .error e => .error e
  | .ok v => applyFilePathCheck env isFilePath v

/-! ## API Method Registry (`MispService._get_api_method`,
`MispService.on_register_services` lines 327-334)

The PyMISP client object is modelled by the attributes reachable with
`hasattr`/`getattr`: a partial map from attribute name to an attribute
that is or is not callable.  Regular instance methods satisfy
`getattr(c, n).__name__ == n`, so a resolved method is represented by its
attribute name. -/

/-- An attribute of the remote-API client object: all the dispatch logic
inspects is whether it is callable. -/
structure ApiAttr where
  callable : Bool
deriving DecidableEq

/-- The remote-API client object, seen through `hasattr`/`getattr`. -/
structure ApiClient where
  attrs : String → Option ApiAttr

/-- The method `MispService._get_api_method`: return the attribute of the given name
if it exists and is callable, else `none` (Python `None`). -/
def getApiMethod (client : ApiClient) (apiName : String) : Option String :=
  match client.attrs apiName with
  | some a => if a.callable then some apiName else none
  | none => none

/-- Whether a name resolves to a callable attribute on the client. -/
def isApiMethod (client : ApiClient) (apiName : String) : Bool :=
  (getApiMethod client apiName).isSome

/-- The resolution loop in `MispService.on_register_services` (lines
327-334): walk the configured names in order, collecting the resolved
methods into `api_methods` and the rejected names into the warning log. -/
def resolveApiMethods (client : ApiClient) : List String → List String × List String
  | [] => ([], [])
  | n :: rest =>
    let r := resolveApiMethods client rest
    match getApiMethod client n with
    | some m => (m :: r.1, r.2)
    | none => (r.1, n :: r.2)

/-! ## Topic derivation (`app.py` lines 22-23, 41-42, 275-279, 342-348)

`self._service_unique_id` is either `None` (the setting is absent) or the
stripped string read from the configuration; the source tests it with
Python truthiness (`if self._service_unique_id`), so `None` and `""` both
suppress the optional segment. -/

/-- The constant `MispService._SERVICE_BASE_NAME`. -/
def SERVICE_BASE_NAME : String := "/opendxl-misp/service"

/-- The constant `MispService._SERVICE_TYPE`. -/
def SERVICE_TYPE : String := SERVICE_BASE_NAME ++ "/misp-api"

/-- The constant `MispService._ZEROMQ_NOTIFICATIONS_EVENT_TOPIC`. -/
def ZEROMQ_NOTIFICATIONS_EVENT_TOPIC : String :=
  SERVICE_BASE_NAME ++ "/zeromq-notifications"

/-- The optional topic segment
`"/{}".format(self._service_unique_id) if self._service_unique_id else ""`:
empty when the id is `None` or the empty string. -/
def uidSeg : Option String → String
  | some s => if s = "" then "" else "/" ++ s
  | none => ""

/-- The service topic built in `on_register_services` (lines 344-348):
`<service-type>[/<instance-id>]/<method-name>`. -/
def serviceTopic (uid : Option String) (methodName : String) : String :=
  SERVICE_TYPE ++ uidSeg uid ++ "/" ++ methodName

/-! ## Notification relay loop (`MispService._process_zeromq_messages`,
lines 264-284)

Each loop iteration observes the `__destroyed` flag, polls, and — when a
message is available — receives it, splits it at the first space, and
publishes one event.  An iteration is modelled as the pair of the flag
value observed at the `while` test and the poll outcome; a poll that
raises `zmq.ZMQError` is a distinct outcome from an empty poll so the
error policy is visible. -/

/-- One event published on the DXL fabric by the relay. -/
structure RelayEvent where
  topic : String
  payload : String
deriving DecidableEq

/-- Outcome of one `poll` call: an error (`zmq.ZMQError` raised), no
readable socket, or a received raw message. -/
inductive PollOutcome where
  | pollErr : PollOutcome
  | noMsg : PollOutcome
  | msg : String → PollOutcome
deriving DecidableEq

/-- Body of one loop iteration once a raw message has been received
(lines 272-284): `topic, _, payload = message.partition(" ")`, derived
event topic, one event sent with the remainder as payload. -/
def processMessage (uid : Option String) (message : String) : RelayEvent :=
  let r := partitionSpace message
  { topic := ZEROMQ_NOTIFICATIONS_EVENT_TOPIC ++ uidSeg uid ++ "/" ++ r.1,
    payload := r.2 }

/-- The relay loop `while not self.__destroyed: ...` over a finite trace
of iterations.  Each trace element is (destroyed flag observed at the loop
test, poll outcome for that iteration).  A `pollErr` outcome is the
`except zmq.ZMQError: socks = {}` branch; it publishes nothing and the
loop continues.  A `true` flag ends the loop.  The result is the list of
events published, in order. -/
def relaySteps (uid : Option String) : List (Bool × PollOutcome) → List RelayEvent
  | [] => []
  | (destroyed, o) :: rest =>
    if destroyed then []
    else
      (match o with
       | .msg m => [processMessage uid m]
       | _ => []) ++ relaySteps uid rest

/-! ## Teardown (`MispService.destroy`, lines 286-298)

The whole body runs under `self.__lock` (an RLock), so concurrent calls
serialize into some sequential order of complete critical sections; a
sequence of `destroyStep` applications therefore models both sequential
and concurrent callers.  The state records the flag, whether the socket
and thread exist, and how many times `close` and `join` have been
called. -/

/-- The mutable state `destroy` touches, plus call counters for the two
externally visible teardown effects. -/
structure ServiceState where
  destroyed : Bool
  hasSocket : Bool
  hasThread : Bool
  socketCloseCalls : Nat
  threadJoinCalls : Nat
deriving DecidableEq

/-- One complete execution of the critical section of
`MispService.destroy`: if not yet destroyed, set the flag, close the
socket if present, join the thread if present; otherwise do nothing. -/
def destroyStep (s : ServiceState) : ServiceState :=
  if s.destroyed then s
  else
    { s with
      destroyed := true
      socketCloseCalls := s.socketCloseCalls + (if s.hasSocket then 1 else 0)
      threadJoinCalls := s.threadJoinCalls + (if s.hasThread then 1 else 0) }

/-- A freshly constructed service (`__init__`, lines 52-59) after the
relay has been started: not destroyed, no teardown effect yet. -/
def initialState (hasSocket hasThread : Bool) : ServiceState :=
  { destroyed := false, hasSocket := hasSocket, hasThread := hasThread,
    socketCloseCalls := 0, threadJoinCalls := 0 }

/-! ## Request callback (`MispServiceRequestCallback.on_request`,
`_requesthandlers.py` lines 24-47)

The decoded JSON payload is a Python dict; it is modelled as an
association list with distinct keys (a dict cannot hold a key twice).
JSON scalar values suffice for the dispatch logic, which only ever
distinguishes "a string" from "everything else". -/

/-- A JSON value as decoded by `MessageUtils.json_payload_to_dict`. -/
inductive JVal where
  | jstr : String → JVal
  | jint : Int → JVal
  | jbool : Bool → JVal
  | jnull : JVal
deriving DecidableEq

/-- The decoded request payload: a Python dict, keys distinct. -/
abbrev JDict := List (String × JVal)

/-- The `event`-value coercion of lines 39-42: a value that is a string
(`type(...).__name__ in ("str", "unicode")`) and satisfies `isdigit()` is
replaced by `int(value)`; every other value is left unchanged. -/
def coerceEventValue (v : JVal) : JVal :=
  match v with
  | .jstr s => if pyIsDigit s then .jint (digitsToNat s.toList) else .jstr s
  | v => v

/-- Lines 39-42 applied to the whole dict: only the binding of the key
`"event"` (unique in a dict) is rewritten, through `coerceEventValue`. -/
def coerceEvent (d : JDict) : JDict :=
  d.map (fun kv => if kv.1 = "event" then (kv.1, coerceEventValue kv.2) else kv)

/-- Line 37-38: `MessageUtils.json_payload_to_dict(request) if
request.payload else {}`.  The raw payload is `none` when absent; the
empty string is falsy in Python, so it also yields the empty dict.
`decode` is the external JSON decoder. -/
def requestDict (decode : String → JDict) (payload : Option String) : JDict :=
  match payload with
  | some s => if s = "" then [] else decode s
  | none => []

/-- The arguments the bound operation is invoked with
(`self._api_method(**request_dict)`, line 44). -/
def operationArgs (decode : String → JDict) (payload : Option String) : JDict :=
  coerceEvent (requestDict decode payload)

/-- The callback `on_request` in full, for a bound operation `method` that either
raises (`Except.error`) or returns a result.  The returned pair is the
handler's own outcome (an uncaught exception propagates as `.error`) and
the list of responses sent via `send_response` — empty when the operation
raised (line 44 raises before lines 45-47 run), a single serialized
response otherwise. -/
def onRequest {ε ρ σ : Type} (decode : String → JDict)
    (method : JDict → Except ε ρ) (serialize : ρ → σ)
    (payload : Option String) : Except ε ρ × List σ :=
  match method (operationArgs decode payload) with
  | .error e => (.error e, [])
  | .ok r => (.ok r, [serialize r])

/-! ## Service registration (`MispService.on_register_services`,
lines 336-363)

When at least one configured name resolved, a single
`ServiceRegistrationInfo` is created and one request callback is added
per resolved method, at its service topic; when none resolved, nothing at
all is registered.  A registered service is represented by the list of
topics its callbacks were added under. -/

/-- The services registered by `on_register_services`, each as its list
of request-callback topics. -/
def registeredServices (client : ApiClient) (uid : Option String)
    (apiNames : List String) : List (List String) :=
  let apiMethods := (resolveApiMethods client apiNames).1
  if apiMethods.isEmpty then []
  else [apiMethods.map (serviceTopic uid)]

/-! ## Helper lemmas -/

theorem partitionSpaceChars_append (t p : List Char)
    (h : ∀ c ∈ t, c ≠ ' ') :
    partitionSpaceChars (t ++ ' ' :: p) = (t, p) := by
  induction t with
  | nil => simp [partitionSpaceChars]
  | cons c cs ih =>
    have hc : c ≠ ' ' := h c (by simp)
    simp [partitionSpaceChars, hc,
      ih (fun x hx => h x (by simp [hx]))]

theorem destroyStep_of_destroyed (s : ServiceState) (h : s.destroyed = true) :
    destroyStep s = s := by
  simp [destroyStep, h]

theorem destroyStep_initial (hs ht : Bool) :
    destroyStep (initialState hs ht) =
      { destroyed := true, hasSocket := hs, hasThread := ht,
        socketCloseCalls := if hs then 1 else 0,
        threadJoinCalls := if ht then 1 else 0 } := by
  simp [destroyStep, initialState]

theorem getApiMethod_eq_ite (client : ApiClient) (n : String) :
    getApiMethod client n = if isApiMethod client n then some n else none := by
  unfold isApiMethod getApiMethod
  cases client.attrs n with
  | none => rfl
  | some a =>
    by_cases hc : a.callable <;> simp [hc]

theorem coerceEvent_cons (k : String) (v : JVal) (rest : JDict) :
    coerceEvent ((k, v) :: rest) =
      (if k = "event" then (k, coerceEventValue v) else (k, v)) :: coerceEvent rest := by
  simp only [coerceEvent, List.map_cons]

theorem jdict_lookup_cons (a k : String) (v : JVal) (rest : JDict) :
    List.lookup a ((k, v) :: rest) =
      if (a == k) then some v else List.lookup a rest := by
  simp only [List.lookup]
  split <;> simp_all

theorem lookup_coerceEvent_event (d : JDict) :
    (coerceEvent d).lookup "event" = (d.lookup "event").map coerceEventValue := by
  induction d with
  | nil => rfl
  | cons kv rest ih =>
    obtain ⟨k, v⟩ := kv
    rw [coerceEvent_cons]
    by_cases hk : k = "event"
    · subst hk
      rw [if_pos rfl, jdict_lookup_cons, jdict_lookup_cons]
      simp
    · have hb : ("event" == k) = false := beq_eq_false_iff_ne.mpr (Ne.symm hk)
      rw [if_neg hk, jdict_lookup_cons, jdict_lookup_cons]
      simp [hb, ih]

theorem lookup_coerceEvent_ne (d : JDict) (k : String) (hk : k ≠ "event") :
    (coerceEvent d).lookup k = d.lookup k := by
  induction d with
  | nil => rfl
  | cons kv rest ih =>
    obtain ⟨k', v⟩ := kv
    rw [coerceEvent_cons]
    by_cases hk' : k' = "event"
    · subst hk'
      have hb : (k == "event") = false := beq_eq_false_iff_ne.mpr hk
      rw [if_pos rfl, jdict_lookup_cons, jdict_lookup_cons]
      simp [hb, ih]
    · rw [if_neg hk', jdict_lookup_cons, jdict_lookup_cons]
      by_cases he : k = k'
      · simp [he]
      · have hb : (k == k') = false := beq_eq_false_iff_ne.mpr he
        simp [hb, ih]

theorem coerceEvent_of_lookup_none (d : JDict) (h : d.lookup "event" = none) :
    coerceEvent d = d := by
  induction d with
  | nil => rfl
  | cons kv rest ih =>
    obtain ⟨k, v⟩ := kv
    rw [jdict_lookup_cons] at h
    rw [coerceEvent_cons]
    by_cases hk : k = "event"
    · subst hk
      simp at h
    · have hb : ("event" == k) = false := beq_eq_false_iff_ne.mpr (Ne.symm hk)
      rw [hb] at h
      rw [if_neg hk, ih (by simpa using h)]

/-! ## Claims -/

/-- C1: for every configured list of operation names, resolution returns
exactly the subset of names that exist as attributes on the remote-API
client object and are invocable, preserved in input-list order, and every
name that does not resolve is reported (logged) and omitted — the
resolution loop is total, so registration is never aborted. -/
theorem resolve_returns_invocable_subset_in_order (client : ApiClient)
    (apiNames : List String) :
    (resolveApiMethods client apiNames).1 = apiNames.filter (isApiMethod client)
    ∧ (resolveApiMethods client apiNames).2 =
        apiNames.filter (fun n => !(isApiMethod client n)) := by
  induction apiNames with
  | nil => exact ⟨rfl, rfl⟩
  | cons n rest ih =>
    have he := getApiMethod_eq_ite client n
    by_cases hm : isApiMethod client n
    · rw [hm] at he
      simp only [resolveApiMethods, he, List.filter, hm]
      simp [ih.1, ih.2]
    · simp only [Bool.not_eq_true] at hm
      rw [hm] at he
      simp only [resolveApiMethods, he, List.filter, hm]
      simp [ih.1, ih.2]

/-- C2: the argument the bound operation receives for the field `event`
is the corresponding integer exactly when the decoded value is a
digit-only string; any other `event` value (non-digit string, already an
integer, or absent) is passed unchanged, and no field other than `event`
is ever modified. -/
theorem event_field_coercion (decode : String → JDict) (s : String)
    (d : JDict) (hs : s ≠ "") (hd : decode s = d) :
    (∀ t, pyIsDigit t = true → d.lookup "event" = some (.jstr t) →
      (operationArgs decode (some s)).lookup "event"
        = some (.jint (digitsToNat t.toList)))
    ∧ (∀ v, d.lookup "event" = some v →
        (∀ t, v = .jstr t → pyIsDigit t = false) →
        (operationArgs decode (some s)).lookup "event" = some v)
    ∧ (d.lookup "event" = none → operationArgs decode (some s) = d)
    ∧ (∀ k, k ≠ "event" →
        (operationArgs decode (some s)).lookup k = d.lookup k) := by
  have hargs : operationArgs decode (some s) = coerceEvent d := by
    simp [operationArgs, requestDict, hs, hd]
  refine ⟨?_, ?_, ?_, ?_⟩
  · intro t ht hl
    rw [hargs, lookup_coerceEvent_event, hl]
    simp [coerceEventValue, ht]
  · intro v hl hnd
    rw [hargs, lookup_coerceEvent_event, hl]
    cases v with
    | jstr t => simp [coerceEventValue, hnd t rfl]
    | jint n => rfl
    | jbool b => rfl
    | jnull => rfl
  · intro hl
    rw [hargs, coerceEvent_of_lookup_none d hl]
  · intro k hk
    rw [hargs, lookup_coerceEvent_ne d k hk]

/-- C2 witness. -/
theorem event_field_coercion_witness :
    (operationArgs (fun _ => [("event", .jstr "42"), ("x", .jstr "7")])
        (some "p")).lookup "event" = some (.jint 42)
    ∧ (operationArgs (fun _ => [("event", .jstr "42"), ("x", .jstr "7")])
        (some "p")).lookup "x" = some (.jstr "7") := by
  have h := event_field_coercion
    (fun _ => [("event", .jstr "42"), ("x", .jstr "7")]) "p"
    [("event", .jstr "42"), ("x", .jstr "7")] (by decide) rfl
  refine ⟨?_, ?_⟩
  · have := h.1 "42" (by decide) (by decide)
    simpa using this
  · have := h.2.2.2 "x" (by decide)
    rw [this]
    decide

/-- C3: if the bound operation raises, the exception propagates out of
the request handler uncaught and no response is sent; if it returns
normally, exactly one response carrying the serialized result is sent. -/
theorem operation_exception_propagates {ε ρ σ : Type}
    (decode : String → JDict) (method : JDict → Except ε ρ)
    (serialize : ρ → σ) (payload : Option String) :
    (∀ e, method (operationArgs decode payload) = .error e →
      onRequest decode method serialize payload = (.error e, []))
    ∧ (∀ r, method (operationArgs decode payload) = .ok r →
      onRequest decode method serialize payload = (.ok r, [serialize r])) := by
  constructor
  · intro e he
    simp [onRequest, he]
  · intro r hr
    simp [onRequest, hr]

/-- C3 witness. -/
theorem operation_exception_propagates_witness :
    onRequest (fun _ => []) (fun _ => (Except.error 0 : Except Nat Nat))
      (fun r => r) none = (.error 0, [])
    ∧ onRequest (fun _ => []) (fun _ => (Except.ok 5 : Except Nat Nat))
      (fun r => r + 1) none = (.ok 5, [6]) := by
  constructor
  · exact (operation_exception_propagates (fun _ => [])
      (fun _ => (Except.error 0 : Except Nat Nat)) (fun r => r) none).1 0 rfl
  · exact (operation_exception_propagates (fun _ => [])
      (fun _ => (Except.ok 5 : Except Nat Nat)) (fun r => r + 1) none).2 5 rfl

/-- C4: an empty or absent request payload decodes to the empty mapping
and the bound operation is invoked with no arguments. -/
theorem empty_payload_no_arguments (decode : String → JDict)
    (payload : Option String) (h : payload = none ∨ payload = some "") :
    requestDict decode payload = [] ∧ operationArgs decode payload = [] := by
  rcases h with h | h <;> subst h <;> exact ⟨rfl, rfl⟩

/-- C4 witness. -/
theorem empty_payload_no_arguments_witness :
    requestDict (fun _ => [("event", .jstr "1")]) (some "") = []
    ∧ operationArgs (fun _ => [("event", .jstr "1")]) (some "") = [] :=
  empty_payload_no_arguments (fun _ => [("event", .jstr "1")]) (some "")
    (Or.inr rfl)

/-- C5: every raw notification message is split into topic and payload at
the first space; one bus event per message is published whose topic is
the notification base topic, then the optional instance segment, then the
original topic, and whose payload is the remainder after the first space;
events are published in receipt order. -/
theorem relay_one_event_per_message (uid : Option String)
    (msgs : List String) (topic payload : String)
    (h : ∀ c ∈ topic.toList, c ≠ ' ') :
    relaySteps uid (msgs.map (fun m => (false, PollOutcome.msg m)))
      = msgs.map (processMessage uid)
    ∧ processMessage uid (topic ++ " " ++ payload) =
        { topic := ZEROMQ_NOTIFICATIONS_EVENT_TOPIC ++ uidSeg uid ++ "/" ++ topic,
          payload := payload } := by
  constructor
  · induction msgs with
    | nil => rfl
    | cons m rest ih => simp [relaySteps, ih]
  · have hl : (topic ++ " " ++ payload).toList
        = topic.toList ++ ' ' :: payload.toList := by
      simp [String.toList, String.data_append]
    simp only [processMessage, partitionSpace, hl,
      partitionSpaceChars_append topic.toList payload.toList h]
    rfl

/-- C5 witness. -/
theorem relay_one_event_per_message_witness :
    relaySteps (some "id")
        (["foo/bar hello world"].map (fun m => (false, PollOutcome.msg m)))
      = ["foo/bar hello world"].map (processMessage (some "id"))
    ∧ processMessage (some "id") ("foo/bar" ++ " " ++ "hello world") =
        { topic := "/opendxl-misp/service/zeromq-notifications/id/foo/bar",
          payload := "hello world" } := by
  have h := relay_one_event_per_message (some "id") ["foo/bar hello world"]
    "foo/bar" "hello world" (by decide)
  exact ⟨h.1, h.2.trans (by decide)⟩

/-- C6: shutdown is idempotent and re-entrant.  The whole body of
`destroy` runs under an RLock, so concurrent callers serialize into a
sequence of `destroyStep` applications; any such sequence of at least one
call from a fresh state sets the destroyed flag (which makes the relay
loop exit at its next test), closes the socket at most once (exactly once
when it exists) and joins the listener thread at most once (exactly once
when it exists), and every `destroyStep` is total — no call raises. -/
theorem destroy_idempotent (s : ServiceState) (n : Nat) (hs ht : Bool)
    (hn : 1 ≤ n) :
    destroyStep (destroyStep s) = destroyStep s
    ∧ destroyStep^[n] (initialState hs ht) =
        { destroyed := true, hasSocket := hs, hasThread := ht,
          socketCloseCalls := if hs then 1 else 0,
          threadJoinCalls := if ht then 1 else 0 }
    ∧ (∀ uid o rest, relaySteps uid ((true, o) :: rest) = []) := by
  refine ⟨?_, ?_, ?_⟩
  · by_cases hd : s.destroyed = true
    · simp only [destroyStep_of_destroyed s hd]
    · have h1 : (destroyStep s).destroyed = true := by
        simp [destroyStep, hd]
      rw [destroyStep_of_destroyed _ h1]
  · obtain ⟨m, rfl⟩ : ∃ m, n = m + 1 :=
      ⟨n - 1, (Nat.succ_pred_eq_of_pos hn).symm⟩
    have h1 : destroyStep^[m + 1] (initialState hs ht)
        = destroyStep^[m] (destroyStep (initialState hs ht)) := by
      exact Function.iterate_succ_apply destroyStep m (initialState hs ht)
    rw [h1, destroyStep_initial]
    exact Function.iterate_fixed (destroyStep_of_destroyed _ rfl) m
  · intro uid o rest
    simp [relaySteps]

/-- C6 witness. -/
theorem destroy_idempotent_witness :
    destroyStep^[2] (initialState true true) =
      { destroyed := true, hasSocket := true, hasThread := true,
        socketCloseCalls := 1, threadJoinCalls := 1 } := by
  have h := destroy_idempotent (initialState true true) 2 true true
    (by decide)
  simpa using h.2.1

/-- C8: a poll error inside the relay loop is swallowed and treated as
"no message this iteration": the iteration publishes nothing and the loop
continues; while the destroyed flag stays false the loop processes every
received message, and only a true destroyed flag makes it exit. -/
theorem poll_error_swallowed (uid : Option String)
    (rest trace : List (Bool × PollOutcome))
    (hall : ∀ x ∈ trace, x.1 = false) :
    relaySteps uid ((false, PollOutcome.pollErr) :: rest)
      = relaySteps uid rest
    ∧ relaySteps uid ((false, PollOutcome.pollErr) :: rest)
      = relaySteps uid ((false, PollOutcome.noMsg) :: rest)
    ∧ (∀ o rest2, relaySteps uid ((true, o) :: rest2) = [])
    ∧ relaySteps uid trace = trace.filterMap
        (fun x => match x.2 with
          | .msg m => some (processMessage uid m)
          | _ => none) := by
  refine ⟨by simp [relaySteps], by simp [relaySteps],
    fun o rest2 => by simp [relaySteps], ?_⟩
  induction trace with
  | nil => rfl
  | cons x rest2 ih =>
    obtain ⟨d, o⟩ := x
    have hd : d = false := hall (d, o) (by simp)
    subst hd
    have ih2 := ih (fun y hy => hall y (by simp [hy]))
    cases o <;> simp [relaySteps, ih2]

/-- C8 witness. -/
theorem poll_error_swallowed_witness :
    relaySteps none
        [(false, PollOutcome.pollErr), (false, PollOutcome.msg "a b")]
      = [processMessage none "a b"] := by
  have h := poll_error_swallowed none []
    [(false, PollOutcome.pollErr), (false, PollOutcome.msg "a b")]
    (by decide)
  rw [h.2.2.2]
  rfl

/-- C9: when no configured name resolves to an invocable attribute, no
service and no request-handler topic is registered at all (and
registration still completes); when at least one resolves, exactly one
service is registered and each resolved operation gets exactly one topic
of the form `<service-type>[/<instance-id>]/<operation-name>`. -/
theorem empty_resolution_registers_nothing (client : ApiClient)
    (uid : Option String) (names : List String) :
    ((resolveApiMethods client names).1 = [] →
      registeredServices client uid names = [])
    ∧ ((resolveApiMethods client names).1 ≠ [] →
      registeredServices client uid names =
        [(resolveApiMethods client names).1.map (serviceTopic uid)])
    ∧ (∀ m, serviceTopic uid m = SERVICE_TYPE ++ uidSeg uid ++ "/" ++ m) := by
  refine ⟨?_, ?_, fun m => rfl⟩
  · intro h
    simp [registeredServices, h]
  · intro h
    simp only [registeredServices]
    rw [if_neg (by simpa [List.isEmpty_iff] using h)]

/-- C9 witness: of `["a", "b"]` only `"a"` resolves, so exactly one
service with exactly one topic is registered. -/
theorem empty_resolution_registers_nothing_witness :
    registeredServices
        ⟨fun n => if n = "a" then some ⟨true⟩ else none⟩ none ["a", "b"]
      = [["/opendxl-misp/service/misp-api/a"]] := by
  have h := (empty_resolution_registers_nothing
    ⟨fun n => if n = "a" then some ⟨true⟩ else none⟩ none ["a", "b"]).2.1
    (by decide)
  rw [h]
  decide

theorem stripChars_of_all_ws (l : List Char)
    (h : ∀ c ∈ l, c.isWhitespace = true) : stripChars l = [] := by
  unfold stripChars
  have h1 : l.dropWhile Char.isWhitespace = [] :=
    List.dropWhile_eq_nil_iff.mpr h
  simp [h1]

/-- C10: a service unique id configured as the empty string (including a
whitespace-only value, which the setting resolver trims to empty) is
treated identically to an absent id in every derived topic: the optional
instance segment is omitted exactly when the id is empty or absent, in
service request topics and notification event topics alike. -/
theorem empty_uid_equals_absent (env : ConfigEnv) (sec key raw : String)
    (hl : env.lookup sec key = some raw)
    (hw : ∀ c ∈ raw.toList, c.isWhitespace = true) :
    uidSeg (some "") = uidSeg none
    ∧ (∀ n, serviceTopic (some "") n = serviceTopic none n)
    ∧ (∀ m, processMessage (some "") m = processMessage none m)
    ∧ (∀ u, uidSeg u = "" ↔ u = none ∨ u = some "")
    ∧ getSettingFromConfig env sec key .vnone .str false false
        = .ok (.vstr "") := by
  have huid : uidSeg (some "") = uidSeg none := by simp [uidSeg]
  refine ⟨huid, fun n => by simp [serviceTopic, huid],
    fun m => by simp [processMessage, huid], ?_, ?_⟩
  · intro u
    cases u with
    | none => simp [uidSeg]
    | some s =>
      by_cases hs : s = ""
      · subst hs
        simp [uidSeg]
      · have hne : ("/" ++ s) ≠ "" := by
          intro hc
          have hd := congrArg String.data hc
          rw [String.data_append] at hd
          simp at hd
        simp [uidSeg, hs, hne]
  · have hstrip : pyStrip raw = "" := by
      unfold pyStrip
      rw [stripChars_of_all_ws raw.toList hw]
    simp only [getSettingFromConfig, getSettingRaw, hl, getterMethod]
    simp [hstrip, applyFilePathCheck]

/-- C10 witness. -/
theorem empty_uid_equals_absent_witness :
    serviceTopic (some "") "x" = serviceTopic none "x"
    ∧ getSettingFromConfig ⟨fun _ _ => some "  ", fun _ => false, id⟩
        "General" "serviceUniqueId" .vnone .str false false
        = .ok (.vstr "") := by
  have h := empty_uid_equals_absent
    ⟨fun _ _ => some "  ", fun _ => false, id⟩
    "General" "serviceUniqueId" "  " rfl (by decide)
  exact ⟨h.2.1 "x", h.2.2.2.2⟩

theorem string_length_eq_zero_iff (s : String) : s.length = 0 ↔ s = "" := by
  constructor
  · intro h
    cases s with
    | mk d =>
      cases d with
      | nil => rfl
      | cons c cs => simp [String.length] at h
  · intro h
    subst h
    rfl

theorem stripChars_eq_nil_iff (l : List Char) :
    stripChars l = [] ↔ ∀ c ∈ l, c.isWhitespace = true := by
  unfold stripChars
  rw [List.reverse_eq_nil_iff, List.dropWhile_eq_nil_iff]
  constructor
  · intro h c hc
    have hc2 : c ∈ l.takeWhile Char.isWhitespace
        ++ l.dropWhile Char.isWhitespace := by
      rw [List.takeWhile_append_dropWhile]
      exact hc
    rcases List.mem_append.mp hc2 with h1 | h1
    · exact List.mem_takeWhile_imp h1
    · exact h c (List.mem_reverse.mpr h1)
  · intro h x hx
    exact h x
      ((List.dropWhile_sublist Char.isWhitespace).subset
        (List.mem_reverse.mp hx))

theorem pyStrip_eq_empty_iff (s : String) :
    pyStrip s = "" ↔ ∀ c ∈ s.toList, c.isWhitespace = true := by
  unfold pyStrip
  constructor
  · intro h
    have h2 : stripChars s.toList = [] := by
      have := congrArg String.data h
      simpa using this
    exact (stripChars_eq_nil_iff _).mp h2
  · intro h
    rw [(stripChars_eq_nil_iff _).mpr h]

theorem splitComma_ne_nil (l : List Char) : splitComma l ≠ [] := by
  induction l with
  | nil => simp [splitComma]
  | cons c cs ih =>
    unfold splitComma
    by_cases hc : c = ','
    · simp [hc]
    · simp only [if_neg hc]
      cases h : splitComma cs with
      | nil => simp
      | cons g gs => simp

theorem splitComma_no_comma (l : List Char) (h : ',' ∉ l) :
    splitComma l = [l] := by
  induction l with
  | nil => rfl
  | cons c cs ih =>
    have hc : ¬c = ',' := fun hh => h (by simp [hh])
    have ih2 := ih (fun hh => h (by simp [hh]))
    unfold splitComma
    rw [if_neg hc, ih2]

theorem splitComma_length_one_iff (l : List Char) :
    (splitComma l).length = 1 ↔ ',' ∉ l := by
  induction l with
  | nil => simp [splitComma]
  | cons c cs ih =>
    unfold splitComma
    by_cases hc : c = ','
    · subst hc
      simp only [if_pos rfl, List.length_cons]
      constructor
      · intro h
        exfalso
        have h2 : (splitComma cs).length = 0 := by simpa using h
        exact splitComma_ne_nil cs (List.length_eq_zero.mp h2)
      · intro h
        exact absurd (by simp : (',' : Char) ∈ ',' :: cs) h
    · simp only [if_neg hc]
      cases hsc : splitComma cs with
      | nil => exact absurd hsc (splitComma_ne_nil cs)
      | cons g gs =>
        have h1 : (splitComma cs).length = gs.length + 1 := by
          rw [hsc]
          rfl
        simp only [List.length_cons]
        constructor
        · intro h
          have h2 : (splitComma cs).length = 1 := by omega
          intro hm
          rcases List.mem_cons.mp hm with h3 | h3
          · exact hc h3.symm
          · exact (ih.mp h2) h3
        · intro h
          have h2 : ',' ∉ cs := fun hm => h (by simp [hm])
          have h3 := ih.mpr h2
          omega

theorem pySplitComma_single (r : String) (h : ',' ∉ r.toList) :
    (pySplitComma r).map pyStrip = [pyStrip r] := by
  unfold pySplitComma
  rw [splitComma_no_comma _ h]
  rfl

theorem list_items_empty_iff (r : String) :
    (((pySplitComma r).map pyStrip).length = 1
      ∧ ((((pySplitComma r).map pyStrip).headD "").length = 0))
    ↔ pyStrip r = "" := by
  constructor
  · rintro ⟨h1, h2⟩
    have hlen : (splitComma r.toList).length = 1 := by
      simpa [pySplitComma] using h1
    have hnc : ',' ∉ r.toList := (splitComma_length_one_iff _).mp hlen
    rw [pySplitComma_single r hnc] at h2
    exact (string_length_eq_zero_iff _).mp (by simpa using h2)
  · intro h
    have hw := (pyStrip_eq_empty_iff r).mp h
    have hnc : ',' ∉ r.toList := fun hm =>
      absurd (hw ',' hm) (by decide)
    rw [pySplitComma_single r hnc, h]
    exact ⟨rfl, rfl⟩

theorem getSettingRaw_none (env : ConfigEnv) (sec key : String)
    (dflt : PyVal) (rt : RetType) (req : Bool)
    (h : env.lookup sec key = none) :
    getSettingRaw env sec key dflt rt req =
      if req then .error "Required setting not found" else .ok dflt := by
  simp only [getSettingRaw, h]

theorem getSettingRaw_str (env : ConfigEnv) (sec key : String)
    (dflt : PyVal) (req : Bool) (raw : String)
    (h : env.lookup sec key = some raw) :
    getSettingRaw env sec key dflt .str req =
      if pyStrip raw = "" ∧ req = true then .error "Required setting is empty"
      else .ok (.vstr (pyStrip raw)) := by
  simp only [getSettingRaw, h, getterMethod]
  by_cases he : pyStrip raw = "" <;> by_cases hq : req = true <;>
    simp [he, hq, (string_length_eq_zero_iff (pyStrip raw))]

theorem getSettingRaw_list (env : ConfigEnv) (sec key : String)
    (dflt : PyVal) (req : Bool) (raw : String)
    (h : env.lookup sec key = some raw) :
    getSettingRaw env sec key dflt .list req =
      if pyStrip raw = "" ∧ req = true then .error "Required setting is empty"
      else .ok (.vlist ((pySplitComma raw).map pyStrip)) := by
  simp only [getSettingRaw, h, getterMethod]
  by_cases he : pyStrip raw = ""
  · obtain ⟨hA, hB⟩ := (list_items_empty_iff raw).mpr he
    by_cases hq : req = true
    · have hcond : ((decide (((pySplitComma raw).map pyStrip).length = 1)
          && decide (((((pySplitComma raw).map pyStrip).headD "")).length = 0))
          && req) = true := by
        rw [decide_eq_true hA, decide_eq_true hB, hq]
        rfl
      rw [if_pos hcond, if_pos ⟨he, hq⟩]
    · have hreq : req = false := by
        cases req with
        | false => rfl
        | true => exact absurd rfl hq
      have hcond : ((decide (((pySplitComma raw).map pyStrip).length = 1)
          && decide (((((pySplitComma raw).map pyStrip).headD "")).length = 0))
          && req) = false := by
        rw [hreq, Bool.and_false]
      have hncond : ¬((decide (((pySplitComma raw).map pyStrip).length = 1)
          && decide (((((pySplitComma raw).map pyStrip).headD "")).length = 0))
          && req) = true := by
        intro hcc
        rw [hcond] at hcc
        exact absurd hcc (by decide)
      rw [if_neg hncond, if_neg (fun hcc => hq hcc.2)]
  · have hAB : (decide (((pySplitComma raw).map pyStrip).length = 1)
        && decide (((((pySplitComma raw).map pyStrip).headD "")).length = 0))
        = false := by
      by_cases hA : ((pySplitComma raw).map pyStrip).length = 1
      · have hB : ¬((((pySplitComma raw).map pyStrip).headD "").length = 0) :=
          fun hBc => he ((list_items_empty_iff raw).mp ⟨hA, hBc⟩)
        rw [decide_eq_true hA, decide_eq_false hB, Bool.true_and]
      · rw [decide_eq_false hA, Bool.false_and]
    have hncond : ¬((decide (((pySplitComma raw).map pyStrip).length = 1)
        && decide (((((pySplitComma raw).map pyStrip).headD "")).length = 0))
        && req) = true := by
      intro hcc
      rw [hAB, Bool.false_and] at hcc
      exact absurd hcc (by decide)
    rw [if_neg hncond, if_neg (fun hcc => he hcc.1)]

theorem getSettingRaw_bool (env : ConfigEnv) (sec key : String)
    (dflt : PyVal) (req : Bool) (raw : String)
    (h : env.lookup sec key = some raw) :
    getSettingRaw env sec key dflt .bool req =
      match parseBoolPy raw with
      | none => .error "Unexpected value for setting"
      | some b => .ok (.vbool b) := by
  simp only [getSettingRaw, h, getterMethod]
  cases parseBoolPy raw <;> simp

theorem getSettingRaw_int (env : ConfigEnv) (sec key : String)
    (dflt : PyVal) (req : Bool) (raw : String)
    (h : env.lookup sec key = some raw) :
    getSettingRaw env sec key dflt .int req =
      match parseIntPy raw with
      | none => .error "Unexpected value for setting"
      | some n => .ok (.vint n) := by
  simp only [getSettingRaw, h, getterMethod]
  cases parseIntPy raw <;> simp

theorem getSettingRaw_float (env : ConfigEnv) (sec key : String)
    (dflt : PyVal) (req : Bool) (raw : String)
    (h : env.lookup sec key = some raw) :
    getSettingRaw env sec key dflt .float req =
      if isFloatLit raw then .ok (.vfloat raw)
      else .error "Unexpected value for setting" := by
  simp only [getSettingRaw, h, getterMethod]
  by_cases hf : isFloatLit raw <;> simp [hf]

theorem applyFilePathCheck_not_set (env : ConfigEnv) (v : PyVal) :
    applyFilePathCheck env false v = .ok v := by
  simp [applyFilePathCheck]

theorem applyFilePathCheck_vnone (env : ConfigEnv) (fp : Bool) :
    applyFilePathCheck env fp .vnone = .ok .vnone := by
  simp [applyFilePathCheck, pyTruthy]

theorem applyFilePathCheck_vstr (env : ConfigEnv) (s : String) :
    applyFilePathCheck env true (.vstr s) =
      if s = "" then .ok (.vstr "")
      else if env.fileExists (env.resolvePath s) then
        .ok (.vstr (env.resolvePath s))
      else .error "Cannot find file for setting" := by
  by_cases hs : s = ""
  · subst hs
    simp [applyFilePathCheck, pyTruthy]
  · by_cases hf : env.fileExists (env.resolvePath s) <;>
      simp [applyFilePathCheck, pyTruthy, hs, hf]

theorem getSettingRaw_error_iff (env : ConfigEnv) (sec key : String)
    (dflt : PyVal) (rt : RetType) (req : Bool) :
    (∃ e, getSettingRaw env sec key dflt rt req = .error e)
    ↔ ((req = true ∧ env.lookup sec key = none)
      ∨ (∃ raw, env.lookup sec key = some raw ∧ getterMethod rt raw = none)
      ∨ (req = true ∧ (rt = .str ∨ rt = .list)
          ∧ ∃ raw, env.lookup sec key = some raw ∧ pyStrip raw = "")) := by
  cases hl : env.lookup sec key with
  | none =>
    rw [getSettingRaw_none env sec key dflt rt req hl]
    by_cases hq : req = true <;> simp [hq, hl]
  | some raw =>
    cases rt with
    | str =>
      rw [getSettingRaw_str env sec key dflt req raw hl]
      by_cases he : pyStrip raw = "" <;> by_cases hq : req = true <;>
        simp [he, hq, hl, getterMethod]
    | list =>
      rw [getSettingRaw_list env sec key dflt req raw hl]
      by_cases he : pyStrip raw = "" <;> by_cases hq : req = true <;>
        simp [he, hq, hl, getterMethod]
    | bool =>
      rw [getSettingRaw_bool env sec key dflt req raw hl]
      cases hp : parseBoolPy raw <;> simp [hp, hl, getterMethod]
    | int =>
      rw [getSettingRaw_int env sec key dflt req raw hl]
      cases hp : parseIntPy raw <;> simp [hp, hl, getterMethod]
    | float =>
      rw [getSettingRaw_float env sec key dflt req raw hl]
      by_cases hf : isFloatLit raw <;> simp [hf, hl, getterMethod]

theorem getSettingRaw_str_ok (env : ConfigEnv) (sec key : String)
    (dflt : PyVal) (req : Bool) (v : PyVal)
    (h : getSettingRaw env sec key dflt .str req = .ok v) :
    v = dflt ∨ ∃ raw, env.lookup sec key = some raw ∧ v = .vstr (pyStrip raw) := by
  cases hl : env.lookup sec key with
  | none =>
    rw [getSettingRaw_none env sec key dflt .str req hl] at h
    by_cases hq : req = true
    · rw [if_pos hq] at h
      exact Except.noConfusion h
    · rw [if_neg hq] at h
      exact Or.inl (Except.ok.inj h).symm
  | some raw =>
    rw [getSettingRaw_str env sec key dflt req raw hl] at h
    by_cases hc : pyStrip raw = "" ∧ req = true
    · rw [if_pos hc] at h
      exact Except.noConfusion h
    · rw [if_neg hc] at h
      exact Or.inr ⟨raw, rfl, (Except.ok.inj h).symm⟩

theorem getSettingFromConfig_error_iff (env : ConfigEnv) (sec key : String)
    (dflt : PyVal) (rt : RetType) (req fp : Bool)
    (hfp : fp = true → rt = .str ∧ dflt = .vnone) :
    (∃ e, getSettingFromConfig env sec key dflt rt req fp = .error e)
    ↔ ((req = true ∧ env.lookup sec key = none)
      ∨ (∃ raw, env.lookup sec key = some raw ∧ getterMethod rt raw = none)
      ∨ (req = true ∧ (rt = .str ∨ rt = .list)
          ∧ ∃ raw, env.lookup sec key = some raw ∧ pyStrip raw = "")
      ∨ (fp = true
          ∧ ∃ s, getSettingRaw env sec key dflt rt req = .ok (.vstr s)
            ∧ s ≠ "" ∧ env.fileExists (env.resolvePath s) = false)) := by
  cases hR : getSettingRaw env sec key dflt rt req with
  | error e =>
    simp only [getSettingFromConfig, hR]
    constructor
    · intro _
      rcases (getSettingRaw_error_iff env sec key dflt rt req).mp ⟨e, hR⟩
        with h | h | h
      · exact Or.inl h
      · exact Or.inr (Or.inl h)
      · exact Or.inr (Or.inr (Or.inl h))
    · intro _
      exact ⟨e, rfl⟩
  | ok v =>
    have h123 : ¬((req = true ∧ env.lookup sec key = none)
        ∨ (∃ raw, env.lookup sec key = some raw ∧ getterMethod rt raw = none)
        ∨ (req = true ∧ (rt = .str ∨ rt = .list)
            ∧ ∃ raw, env.lookup sec key = some raw ∧ pyStrip raw = "")) := by
      intro hd
      rcases (getSettingRaw_error_iff env sec key dflt rt req).mpr hd
        with ⟨e, he⟩
      rw [hR] at he
      exact Except.noConfusion he
    simp only [getSettingFromConfig, hR]
    by_cases hfpb : fp = true
    · obtain ⟨hrt, hdf⟩ := hfp hfpb
      subst hrt
      subst hdf
      subst hfpb
      rcases getSettingRaw_str_ok env sec key _ req v hR with hv | ⟨raw, _, hv⟩
      · subst hv
        rw [applyFilePathCheck_vnone]
        constructor
        · rintro ⟨e, he⟩
          exact Except.noConfusion he
        · rintro (h | h | h | ⟨_, s, hok, hs, _⟩)
          · exact absurd (Or.inl h) h123
          · exact absurd (Or.inr (Or.inl h)) h123
          · exact absurd (Or.inr (Or.inr h)) h123
          · exact PyVal.noConfusion (Except.ok.inj hok)
      · subst hv
        rw [applyFilePathCheck_vstr]
        by_cases hs0 : pyStrip raw = ""
        · rw [if_pos hs0]
          constructor
          · rintro ⟨e, he⟩
            exact Except.noConfusion he
          · rintro (h | h | h | ⟨_, s, hok, hs, _⟩)
            · exact absurd (Or.inl h) h123
            · exact absurd (Or.inr (Or.inl h)) h123
            · exact absurd (Or.inr (Or.inr h)) h123
            · exact absurd ((PyVal.vstr.inj (Except.ok.inj hok)).symm.trans hs0) hs
        · rw [if_neg hs0]
          by_cases hfe : env.fileExists (env.resolvePath (pyStrip raw)) = true
          · rw [if_pos hfe]
            constructor
            · rintro ⟨e, he⟩
              exact Except.noConfusion he
            · rintro (h | h | h | ⟨_, s, hok, hs, hnf⟩)
              · exact absurd (Or.inl h) h123
              · exact absurd (Or.inr (Or.inl h)) h123
              · exact absurd (Or.inr (Or.inr h)) h123
              · have hse : s = pyStrip raw :=
                  (PyVal.vstr.inj (Except.ok.inj hok)).symm
                rw [hse, hfe] at hnf
                exact absurd hnf (by decide)
          · rw [if_neg hfe]
            constructor
            · intro _
              refine Or.inr (Or.inr (Or.inr ⟨rfl, pyStrip raw, rfl, hs0, ?_⟩))
              cases hfe2 : env.fileExists (env.resolvePath (pyStrip raw)) with
              | false => rfl
              | true => exact absurd hfe2 hfe
            · intro _
              exact ⟨"Cannot find file for setting", rfl⟩
    · have hfpf : fp = false := by
        cases fp with
        | false => rfl
        | true => exact absurd rfl hfpb
      subst hfpf
      rw [applyFilePathCheck_not_set]
      constructor
      · rintro ⟨e, he⟩
        exact Except.noConfusion he
      · rintro (h | h | h | ⟨hfp4, _⟩)
        · exact absurd (Or.inl h) h123
        · exact absurd (Or.inr (Or.inl h)) h123
        · exact absurd (Or.inr (Or.inr h)) h123
        · exact absurd hfp4 (by decide)

/-- C7: the setting resolver raises a configuration error exactly when
the key is required and absent, a present value cannot be converted to
the expected type, a required string or list value is present but empty
after trimming, or the file-path flag is set and no file exists at the
resolved path; otherwise it returns the parsed value (strings trimmed,
lists split on commas with each element trimmed), or the declared default
unchanged when a non-required setting is missing.  The side condition
reflects the source: `is_file_path` is only ever used with string-typed
settings whose default is `None`. -/
theorem setting_resolver_contract (env : ConfigEnv) (sec key : String)
    (dflt : PyVal) (rt : RetType) (req fp : Bool)
    (hfp : fp = true → rt = .str ∧ dflt = .vnone) :
    ((∃ e, getSettingFromConfig env sec key dflt rt req fp = .error e)
      ↔ ((req = true ∧ env.lookup sec key = none)
        ∨ (∃ raw, env.lookup sec key = some raw ∧ getterMethod rt raw = none)
        ∨ (req = true ∧ (rt = .str ∨ rt = .list)
            ∧ ∃ raw, env.lookup sec key = some raw ∧ pyStrip raw = "")
        ∨ (fp = true
            ∧ ∃ s, getSettingRaw env sec key dflt rt req = .ok (.vstr s)
              ∧ s ≠ "" ∧ env.fileExists (env.resolvePath s) = false)))
    ∧ (env.lookup sec key = none → req = false →
        getSettingFromConfig env sec key dflt rt req fp = .ok dflt)
    ∧ (∀ raw, env.lookup sec key = some raw → rt = .str → fp = false →
        (pyStrip raw ≠ "" ∨ req = false) →
        getSettingFromConfig env sec key dflt rt req fp
          = .ok (.vstr (pyStrip raw)))
    ∧ (∀ raw, env.lookup sec key = some raw → rt = .list →
        (pyStrip raw ≠ "" ∨ req = false) →
        getSettingFromConfig env sec key dflt rt req fp
          = .ok (.vlist ((pySplitComma raw).map pyStrip))) := by
  refine ⟨getSettingFromConfig_error_iff env sec key dflt rt req fp hfp,
    ?_, ?_, ?_⟩
  · intro hl hq
    subst hq
    have hR := getSettingRaw_none env sec key dflt rt false hl
    rw [if_neg (by decide)] at hR
    unfold getSettingFromConfig
    rw [hR]
    by_cases hfpb : fp = true
    · obtain ⟨_, hdf⟩ := hfp hfpb
      subst hdf
      exact applyFilePathCheck_vnone env fp
    · have hfpf : fp = false := by
        cases fp with
        | false => rfl
        | true => exact absurd rfl hfpb
      subst hfpf
      exact applyFilePathCheck_not_set env dflt
  · intro raw hl hrt hfpf hne
    subst hrt
    subst hfpf
    have hR := getSettingRaw_str env sec key dflt req raw hl
    have hc : ¬(pyStrip raw = "" ∧ req = true) := by
      rintro ⟨h1, h2⟩
      rcases hne with hne | hne
      · exact hne h1
      · rw [hne] at h2
        exact absurd h2 (by decide)
    rw [if_neg hc] at hR
    unfold getSettingFromConfig
    rw [hR]
    exact applyFilePathCheck_not_set env _
  · intro raw hl hrt hne
    subst hrt
    have hfpf : fp = false := by
      cases hx : fp with
      | false => rfl
      | true => exact absurd (hfp hx).1 (by simp)
    subst hfpf
    have hR := getSettingRaw_list env sec key dflt req raw hl
    have hc : ¬(pyStrip raw = "" ∧ req = true) := by
      rintro ⟨h1, h2⟩
      rcases hne with hne | hne
      · exact hne h1
      · rw [hne] at h2
        exact absurd h2 (by decide)
    rw [if_neg hc] at hR
    unfold getSettingFromConfig
    rw [hR]
    exact applyFilePathCheck_not_set env _

/-- C7 witness: a required setting absent from the configuration raises,
a non-required missing setting returns its default unchanged, and a
present list value is split on commas and trimmed. -/
theorem setting_resolver_contract_witness :
    (∃ e, getSettingFromConfig ⟨fun _ _ => none, fun _ => false, id⟩
        "General" "host" .vnone .str true false = .error e)
    ∧ getSettingFromConfig ⟨fun _ _ => none, fun _ => false, id⟩
        "General" "apiPort" (.vint 443) .int false false = .ok (.vint 443)
    ∧ getSettingFromConfig ⟨fun _ _ => some " a , b ", fun _ => false, id⟩
        "General" "apiNames" .vnone .list false false
        = .ok (.vlist ["a", "b"]) := by
  refine ⟨?_, ?_, ?_⟩
  · exact (setting_resolver_contract ⟨fun _ _ => none, fun _ => false, id⟩
      "General" "host" .vnone .str true false
      (fun h => absurd h (by decide))).1.mpr (Or.inl ⟨rfl, rfl⟩)
  · exact (setting_resolver_contract ⟨fun _ _ => none, fun _ => false, id⟩
      "General" "apiPort" (.vint 443) .int false false
      (fun h => absurd h (by decide))).2.1 rfl rfl
  · have h := (setting_resolver_contract
      ⟨fun _ _ => some " a , b ", fun _ => false, id⟩
      "General" "apiNames" .vnone .list false false
      (fun h => absurd h (by decide))).2.2.2 " a , b " rfl rfl
      (Or.inr rfl)
    rw [h]
    rfl

end DxlMisp
